import Mathlib

/-!
Grocery chatbot client (`src/App.js`): chat request lifecycle, suggestion
fetch and voice-input timers.

A shallow embedding of the React component `App`.  Component state
(`useState` cells and the two timer refs) becomes the record `AppState`;
every handler becomes a pure function on that record.  Outbound HTTP calls,
calls to `recognition.stop()` and the debounced `setUserInput` calls are
recorded in log fields so that statements about "which requests were issued"
can be made.  The result of an awaited HTTP call is an explicit argument
(`ChatOutcome`, `LookupOutcome`).
-/

namespace GroceryChatbot

/-! ## Data model -/

/-- One element of the `images` array of the chat response
(`{ id, product_name, price, image_base64 }`). -/
structure ImageAttachment where
  id : Nat
  product_name : String
  price : Nat
  image_base64 : String
  deriving DecidableEq

/-- The `sender` field of a chat-history entry: `"user"` or `"bot"`. -/
inductive Sender where
  | user
  | bot
  deriving DecidableEq

/-- An entry of `chatHistory`.  `text` is `none` when the JavaScript value is
`undefined`; `images` is `none` when the object literal has no `images`
property (user messages and the fixed bot messages). -/
structure Message where
  sender : Sender
  text : Option String
  images : Option (List ImageAttachment)
  deriving DecidableEq

/-! ## JavaScript `Map` (insertion ordered) and the deduplication of line 140 -/

/-- Model of `Map.prototype.set`: an existing key keeps its position and gets the new
value, a new key is appended at the end. -/
def mapSet {κ α : Type} [DecidableEq κ] : List (κ × α) → κ → α → List (κ × α)
  | [], k, v => [(k, v)]
  | (k', v') :: rest, k, v =>
    if k' = k then (k', v) :: rest else (k', v') :: mapSet rest k v

/-- Model of `new Map(entries)`: the entries are `set` one after the other, left to
right, on an empty map. -/
def mapFromEntries {κ α : Type} [DecidableEq κ] (entries : List (κ × α)) : List (κ × α) :=
  entries.foldl (fun m e => mapSet m e.1 e.2) []

/-- Model of `Map.prototype.values()` collected by `Array.from`. -/
def mapValues {κ α : Type} (m : List (κ × α)) : List α :=
  m.map Prod.snd

/-- Lines 140-142:
`Array.from(new Map(images.map((img) => [img.id, img])).values())`. -/
def uniqueImages (images : List ImageAttachment) : List ImageAttachment :=
  mapValues (mapFromEntries (images.map (fun img => (img.id, img))))

/-! ## Strings: `String.prototype.trim` and truthiness -/

/-- ECMAScript `WhiteSpace` and `LineTerminator` code points, the characters
that `trim` strips. -/
def isJsWhiteSpace (c : Char) : Bool :=
  let n := c.toNat
  n == 0x09 || n == 0x0A || n == 0x0B || n == 0x0C || n == 0x0D || n == 0x20 ||
  n == 0xA0 || n == 0x1680 || (0x2000 ≤ n && n ≤ 0x200A) || n == 0x2028 ||
  n == 0x2029 || n == 0x202F || n == 0x205F || n == 0x3000 || n == 0xFEFF

/-- Model of `s.trim()`: leading and trailing white space removed. -/
def jsTrim (s : String) : String :=
  ⟨((s.data.dropWhile isJsWhiteSpace).reverse.dropWhile isJsWhiteSpace).reverse⟩

/-- Truthiness of a JavaScript string: every string but the empty one. -/
def truthy (s : String) : Bool :=
  !s.data.isEmpty

/-! ## Outbound requests and their outcomes -/

/-- The two HTTP calls of the component. -/
inductive Request where
  /-- The call `axios.post("/chat", { query })` -/
  | chat (query : String)
  /-- The call `axios.get("/products", { params: { query } })` -/
  | products (query : String)
  deriving DecidableEq

/-- The body of a 2xx chat response (`response.data`) when it is an object:
either property may be missing. -/
structure ChatData where
  response : Option String
  images : Option (List ImageAttachment)
  deriving DecidableEq

/-- How the awaited `axios.post` settles.  axios rejects on a network error
and on a status outside 2xx; `ok none` is a 2xx response whose body is
`null` or absent. -/
inductive ChatOutcome where
  | networkError
  | badStatus (status : Nat)
  | ok (data : Option ChatData)
  deriving DecidableEq

/-- How the awaited `axios.get` settles; `ok none` is a 2xx response without
a `products` array. -/
inductive LookupOutcome where
  | failed
  | ok (products : Option (List String))
  deriving DecidableEq

/-! ## Component state -/

/-- A pending `setTimeout`: the time at which it fires and the string its
callback closes over. -/
structure Timer where
  deadline : Nat
  payload : String
  deriving DecidableEq

/-- The state of `App`.  `silenceTimeout` / `debounceTimeout` hold the
pending timer whose id is in the ref of the same name (`none`: no timer of
that ref is pending).  `now` is the clock in milliseconds.  `requests`,
`debounceWrites` and `stopCalls` log the HTTP calls issued, the values passed
to `setUserInput` by the debounce callback and the calls of
`recognition.stop()`. -/
structure AppState where
  userInput : String
  chatHistory : List Message
  isTyping : Bool
  suggestions : List String
  isListening : Bool
  recognition : Bool
  silenceTimeout : Option Timer
  debounceTimeout : Option Timer
  now : Nat
  requests : List Request
  debounceWrites : List String
  stopCalls : Nat
  deriving DecidableEq

/-- The value of `userInput` in the first render (`useState("")`). -/
def mountUserInput : String := ""

/-- State after mount; `supported` says whether `"webkitSpeechRecognition" in
window` held, i.e. whether `recognitionRef.current` was set (line 46). -/
def initialState (supported : Bool) : AppState :=
  { userInput := mountUserInput, chatHistory := [], isTyping := false, suggestions := [],
    isListening := false, recognition := supported, silenceTimeout := none,
    debounceTimeout := none, now := 0, requests := [], debounceWrites := [], stopCalls := 0 }

/-! ## Conversation driver: `handleSend` (lines 122-156) -/

/-- The fixed text of the `catch` branch (line 151). -/
def fallbackText : String := "Oops! Something went wrong. Try again."

/-- The message of the `catch` branch: `{ sender: "bot", text: "Oops! ..." }`. -/
def fallbackMessage : Message :=
  { sender := .bot, text := some fallbackText, images := none }

/-- The message of line 126: `{ sender: "user", text: userInput }`. -/
def userMessage (userInput : String) : Message :=
  { sender := .user, text := some userInput, images := none }

/-- The `try` block after the `await` (lines 137-146): `some msg` when it
runs to the end, `none` when it throws.  A rejected request throws; a body
that is not an object throws at the destructuring; a missing `images` throws
at `images.map`; a missing `response` only leaves `botResponse` undefined. -/
def botReply : ChatOutcome → Option Message
  | .networkError => none
  | .badStatus _ => none
  | .ok none => none
  | .ok (some data) =>
    match data.images with
    | none => none
    | some images =>
      some { sender := .bot, text := data.response, images := some (uniqueImages images) }

/-- Lines 126-135, the part of `handleSend` up to the `await`, for a call
that passed the guard of line 123.  `userInput` is the value the closure of
`handleSend` captured. -/
def handleSendBegin (userInput : String) (st : AppState) : AppState :=
  { st with
    chatHistory := st.chatHistory ++ [userMessage userInput]
    isTyping := true
    userInput := ""
    requests := st.requests ++ [Request.chat userInput] }

/-- Lines 137-155, the part of `handleSend` after the `await`. -/
def handleSendSettle (outcome : ChatOutcome) (st : AppState) : AppState :=
  match botReply outcome with
  | some msg => { st with chatHistory := st.chatHistory ++ [msg], isTyping := false }
  | none => { st with chatHistory := st.chatHistory ++ [fallbackMessage], isTyping := false }

/-- One call of `handleSend` whose request settles with `outcome`, nothing
else happening in between.  `userInput` is the value captured by the closure
that is called. -/
def handleSend (userInput : String) (outcome : ChatOutcome) (st : AppState) : AppState :=
  if !truthy (jsTrim userInput) then st
  else handleSendSettle outcome (handleSendBegin userInput st)

/-- The Send button and the Enter key call the `handleSend` of the latest
render, whose `userInput` is the current state (lines 271, 288). -/
def clickSend (outcome : ChatOutcome) (st : AppState) : AppState :=
  handleSend st.userInput outcome st

/-! ## Suggestion fetcher (lines 26-42) -/

/-- The effect `fetchSuggestions` for the current `userInput`, its request
settling with `outcome`.  `response.data.products.slice(0, 3)` throws inside
the `try` when `products` is missing, which the `catch` only logs. -/
def fetchSuggestions (outcome : LookupOutcome) (st : AppState) : AppState :=
  if truthy (jsTrim st.userInput) then
    let st1 := { st with requests := st.requests ++ [Request.products st.userInput] }
    match outcome with
    | .ok (some products) => { st1 with suggestions := products.take 3 }
    | .ok none => st1
    | .failed => st1
  else { st with suggestions := [] }

/-! ## Voice input (lines 45-120) -/

/-- A `SpeechRecognitionResult`: its `isFinal` flag and the transcript of its
first alternative (`results[i][0].transcript`). -/
structure SpeechRecognitionResult where
  isFinal : Bool
  transcript : String
  deriving DecidableEq

/-- A `SpeechRecognitionEvent`. -/
structure SpeechRecognitionEvent where
  resultIndex : Nat
  results : List SpeechRecognitionResult
  deriving DecidableEq

/-- The loop of lines 53-63; the pair is `(interimTranscript, finalTranscript)`. -/
def transcripts (event : SpeechRecognitionEvent) : String × String :=
  (event.results.drop event.resultIndex).foldl
    (fun acc r =>
      if r.isFinal then (acc.1, acc.2 ++ r.transcript) else (acc.1 ++ r.transcript, acc.2))
    ("", "")

/-- The variable `interimTranscript` after the loop. -/
def interimTranscript (event : SpeechRecognitionEvent) : String :=
  (transcripts event).1

/-- The variable `finalTranscript` after the loop. -/
def finalTranscript (event : SpeechRecognitionEvent) : String :=
  (transcripts event).2

/-- The expression `finalTranscript || interimTranscript` of line 68. -/
def debounceValue (event : SpeechRecognitionEvent) : String :=
  if truthy (finalTranscript event) then finalTranscript event else interimTranscript event

/-- The handler `recognition.onresult` (lines 52-81), run at time `st.now`. -/
def onresult (event : SpeechRecognitionEvent) (st : AppState) : AppState :=
  { st with
    debounceTimeout := some { deadline := st.now + 200, payload := debounceValue event }
    silenceTimeout :=
      if truthy (finalTranscript event) then
        some { deadline := st.now + 1000, payload := finalTranscript event }
      else none }

/-- The handler `recognition.onstart` (lines 83-85). -/
def onstart (st : AppState) : AppState :=
  { st with isListening := true }

/-- The handler `recognition.onend` (lines 87-89). -/
def onend (st : AppState) : AppState :=
  { st with isListening := false }

/-- The text of line 96. -/
def captureErrorText : String := "Sorry, I couldn't understand. Please try again."

/-- The handler `recognition.onerror` (lines 91-98). -/
def onerror (st : AppState) : AppState :=
  { st with
    isListening := false
    chatHistory := st.chatHistory ++
      [{ sender := .bot, text := some captureErrorText, images := none }] }

/-- The call `recognition.stop()`: the session ends and the browser delivers
`onend`; the two steps are taken as one. -/
def recognitionStop (st : AppState) : AppState :=
  onend { st with stopCalls := st.stopCalls + 1 }

/-- The text of line 113. -/
def unsupportedText : String := "Voice input is not supported in this browser."

/-- The function `startVoiceInput` (lines 109-120); `recognition.start()` and
the `onstart` it leads to are taken as one step. -/
def startVoiceInput (st : AppState) : AppState :=
  if !st.recognition then
    { st with chatHistory := st.chatHistory ++
        [{ sender := .bot, text := some unsupportedText, images := none }] }
  else if !st.isListening then onstart st
  else st

/-- The cleanup of the effect (lines 102-106), run on unmount. -/
def cleanup (st : AppState) : AppState :=
  let st1 := if st.recognition then recognitionStop st else st
  { st1 with silenceTimeout := none, debounceTimeout := none }

/-! ## Timers -/

/-- The callback of the debounce timer (line 68). -/
def debounceCallback (value : String) (st : AppState) : AppState :=
  { st with userInput := value, debounceWrites := st.debounceWrites ++ [value] }

/-- The callback of the silence timer (lines 75-78).  The effect that
installs `onresult` has the dependency list `[]`, so it runs once, after the
first render, and the `handleSend` it refers to is the one of that render:
its `userInput` is `mountUserInput`.  `outcome` settles the request that
call may issue. -/
def silenceCallback (finalTranscript : String) (outcome : ChatOutcome) (st : AppState) :
    AppState :=
  let st1 := recognitionStop st
  if truthy (jsTrim finalTranscript) then handleSend mountUserInput outcome st1 else st1

/-- Run the debounce timer if it is pending and due at time `t`. -/
def fireDebounce (t : Nat) (st : AppState) : AppState :=
  match st.debounceTimeout with
  | some tm =>
    if tm.deadline ≤ t then debounceCallback tm.payload { st with debounceTimeout := none }
    else st
  | none => st

/-- Run the silence timer if it is pending and due at time `t`. -/
def fireSilence (t : Nat) (outcome : ChatOutcome) (st : AppState) : AppState :=
  match st.silenceTimeout with
  | some tm =>
    if tm.deadline ≤ t then silenceCallback tm.payload outcome { st with silenceTimeout := none }
    else st
  | none => st

/-- Whether the debounce timer runs before the silence timer when both are
due: the earlier deadline first. -/
def debounceFirst (st : AppState) : Bool :=
  match st.debounceTimeout, st.silenceTimeout with
  | some d, some s => decide (d.deadline ≤ s.deadline)
  | _, _ => true

/-- Let `ms` milliseconds pass without any other event: the timers that come
due run, in the order of their deadlines.  No callback schedules a timer. -/
def advance (ms : Nat) (outcome : ChatOutcome) (st : AppState) : AppState :=
  let t := st.now + ms
  let st1 :=
    if debounceFirst st then fireSilence t outcome (fireDebounce t st)
    else fireDebounce t (fireSilence t outcome st)
  { st1 with now := t }

/-- A burst of recognition events: the first is handled at once, each later
one after the gap given with it. -/
def runEvents : List (Nat × SpeechRecognitionEvent) → ChatOutcome → AppState → AppState
  | [], _, st => st
  | (gap, ev) :: rest, outcome, st => runEvents rest outcome (onresult ev (advance gap outcome st))

/-! ## Transition system -/

/-- What can happen to the mounted component. -/
inductive Action where
  | change (text : String)
  | fetch (outcome : LookupOutcome)
  | send (outcome : ChatOutcome)
  | sendBegin
  | sendSettle (outcome : ChatOutcome)
  | mic
  | result (event : SpeechRecognitionEvent)
  | sessionEnd
  | sessionError
  | wait (ms : Nat) (outcome : ChatOutcome)

/-- One transition.  `change` is `setUserInput` from the text box or from a
suggestion button (lines 255, 270). -/
def step (st : AppState) : Action → AppState
  | .change text => { st with userInput := text }
  | .fetch outcome => fetchSuggestions outcome st
  | .send outcome => clickSend outcome st
  | .sendBegin => if !truthy (jsTrim st.userInput) then st else handleSendBegin st.userInput st
  | .sendSettle outcome => handleSendSettle outcome st
  | .mic => startVoiceInput st
  | .result event => onresult event st
  | .sessionEnd => onend st
  | .sessionError => onerror st
  | .wait ms outcome => advance ms outcome st

/-- The states the component can be in: those a sequence of transitions
leads to from the state after mount. -/
def Reachable (st : AppState) : Prop :=
  ∃ (supported : Bool) (actions : List Action), st = actions.foldl step (initialState supported)

/-! ## Lemmas on the insertion-ordered map -/

section MapLemmas

variable {κ α : Type} [DecidableEq κ]

theorem mapSet_keys (m : List (κ × α)) (k : κ) (v : α) :
    (mapSet m k v).map Prod.fst =
      if k ∈ m.map Prod.fst then m.map Prod.fst else m.map Prod.fst ++ [k] := by
  induction m with
  | nil => simp [mapSet]
  | cons p rest ih =>
    obtain ⟨k', v'⟩ := p
    by_cases h : k' = k
    · subst h; simp [mapSet]
    · have h' : ¬ k = k' := fun e => h e.symm
      by_cases hm : k ∈ rest.map Prod.fst
      · simp only [mapSet, if_neg h, List.map_cons, ih, if_pos hm, List.mem_cons, hm, or_true,
          if_true]
      · simp only [mapSet, if_neg h, List.map_cons, ih, if_neg hm, List.mem_cons, h', hm,
          or_self, if_false, List.cons_append]

theorem mapSet_find (m : List (κ × α)) (k : κ) (v : α) (i : κ) :
    (mapSet m k v).find? (fun p => decide (p.1 = i)) =
      if k = i then some (k, v) else m.find? (fun p => decide (p.1 = i)) := by
  induction m with
  | nil => by_cases h : k = i <;> simp [mapSet, h]
  | cons p rest ih =>
    obtain ⟨k', v'⟩ := p
    by_cases h : k' = k
    · subst h
      by_cases hi : k' = i <;> simp [mapSet, hi, List.find?_cons]
    · by_cases hi : k = i
      · subst hi
        simp [mapSet, h, List.find?_cons, ih]
      · by_cases hi' : k' = i
        · subst hi'
          simp [mapSet, h, hi, List.find?_cons]
        · simp [mapSet, h, hi, hi', List.find?_cons, ih]

theorem mapFromEntries_snoc (es : List (κ × α)) (e : κ × α) :
    mapFromEntries (es ++ [e]) = mapSet (mapFromEntries es) e.1 e.2 := by
  simp [mapFromEntries, List.foldl_append]

theorem mapSet_mem (m : List (κ × α)) (k : κ) (v : α) (p : κ × α)
    (hp : p ∈ mapSet m k v) : p ∈ m ∨ p = (k, v) := by
  induction m with
  | nil => simpa [mapSet] using hp
  | cons q rest ih =>
    obtain ⟨k', v'⟩ := q
    by_cases h : k' = k
    · subst h
      simp only [mapSet, if_true, List.mem_cons] at hp
      rcases hp with hp | hp
      · exact Or.inr hp
      · exact Or.inl (List.mem_cons_of_mem _ hp)
    · simp only [mapSet, if_neg h, List.mem_cons] at hp
      rcases hp with hp | hp
      · exact Or.inl (by simp [hp])
      · rcases ih hp with h1 | h1
        · exact Or.inl (List.mem_cons_of_mem _ h1)
        · exact Or.inr h1

theorem mapFromEntries_keys_mem (es : List (κ × α)) (i : κ) :
    i ∈ (mapFromEntries es).map Prod.fst ↔ i ∈ es.map Prod.fst := by
  induction es using List.reverseRecOn generalizing i with
  | nil => simp [mapFromEntries]
  | append_singleton es e ih =>
    rw [mapFromEntries_snoc, mapSet_keys]
    by_cases hk : e.1 ∈ (mapFromEntries es).map Prod.fst
    · rw [if_pos hk, List.map_append, List.mem_append, ih]
      constructor
      · exact Or.inl
      · rintro (h | h)
        · exact h
        · have : i = e.1 := by simpa using h
          rw [this]; exact (ih _).mp hk
    · rw [if_neg hk, List.map_append, List.mem_append, List.mem_append, ih]
      simp

theorem mapFromEntries_keys_nodup (es : List (κ × α)) :
    ((mapFromEntries es).map Prod.fst).Nodup := by
  induction es using List.reverseRecOn with
  | nil => simp [mapFromEntries]
  | append_singleton es e ih =>
    rw [mapFromEntries_snoc, mapSet_keys]
    by_cases hk : e.1 ∈ (mapFromEntries es).map Prod.fst
    · rw [if_pos hk]; exact ih
    · rw [if_neg hk]
      exact List.Nodup.append ih (List.nodup_singleton _) (by simpa using hk)

theorem indexOf_snoc_of_mem {l : List κ} {a : κ} (k : κ) (h : a ∈ l) :
    (l ++ [k]).indexOf a = l.indexOf a :=
  List.indexOf_append_of_mem h

theorem indexOf_snoc_of_not_mem {l : List κ} {a : κ} (h : a ∉ l) :
    (l ++ [a]).indexOf a = l.length := by
  rw [List.indexOf_append_of_not_mem h]; simp

theorem mapFromEntries_keys_order (es : List (κ × α)) (a b : κ)
    (ha : a ∈ es.map Prod.fst) (hb : b ∈ es.map Prod.fst) :
    ((mapFromEntries es).map Prod.fst).indexOf a < ((mapFromEntries es).map Prod.fst).indexOf b ↔
      (es.map Prod.fst).indexOf a < (es.map Prod.fst).indexOf b := by
  induction es using List.reverseRecOn with
  | nil => simp at ha
  | append_singleton es e ih =>
    rw [mapFromEntries_snoc, mapSet_keys]
    have hmem := mapFromEntries_keys_mem es
    rw [List.map_append, List.map_singleton] at ha hb ⊢
    by_cases hk : e.1 ∈ (mapFromEntries es).map Prod.fst
    · have hkI : e.1 ∈ es.map Prod.fst := (hmem _).mp hk
      have ha' : a ∈ es.map Prod.fst := by
        rcases List.mem_append.mp ha with h | h
        · exact h
        · have : a = e.1 := by simpa using h
          rw [this]; exact hkI
      have hb' : b ∈ es.map Prod.fst := by
        rcases List.mem_append.mp hb with h | h
        · exact h
        · have : b = e.1 := by simpa using h
          rw [this]; exact hkI
      rw [if_pos hk, indexOf_snoc_of_mem _ ha', indexOf_snoc_of_mem _ hb']
      exact ih ha' hb'
    · have hkI : e.1 ∉ es.map Prod.fst := fun h => hk ((hmem _).mpr h)
      rw [if_neg hk]
      by_cases ha' : a ∈ es.map Prod.fst
      · have haK := (hmem a).mpr ha'
        by_cases hb' : b ∈ es.map Prod.fst
        · have hbK := (hmem b).mpr hb'
          rw [indexOf_snoc_of_mem _ ha', indexOf_snoc_of_mem _ hb', indexOf_snoc_of_mem _ haK,
            indexOf_snoc_of_mem _ hbK]
          exact ih ha' hb'
        · have hbe : b = e.1 := by
            rcases List.mem_append.mp hb with h | h
            · exact absurd h hb'
            · simpa using h
          subst hbe
          rw [indexOf_snoc_of_mem _ ha', indexOf_snoc_of_mem _ haK, indexOf_snoc_of_not_mem hkI,
            indexOf_snoc_of_not_mem hk]
          exact ⟨fun _ => List.indexOf_lt_length.mpr ha', fun _ => List.indexOf_lt_length.mpr haK⟩
      · have hae : a = e.1 := by
          rcases List.mem_append.mp ha with h | h
          · exact absurd h ha'
          · simpa using h
        subst hae
        rw [indexOf_snoc_of_not_mem hkI, indexOf_snoc_of_not_mem hk]
        have h1 : ((mapFromEntries es).map Prod.fst ++ [e.1]).indexOf b ≤
            ((mapFromEntries es).map Prod.fst ++ [e.1]).length := List.indexOf_le_length
        have h2 : (es.map Prod.fst ++ [e.1]).indexOf b ≤ (es.map Prod.fst ++ [e.1]).length :=
          List.indexOf_le_length
        by_cases hb' : b ∈ es.map Prod.fst
        · have hbK := (hmem b).mpr hb'
          rw [indexOf_snoc_of_mem _ hb', indexOf_snoc_of_mem _ hbK]
          have := List.indexOf_lt_length.mpr hb'
          have := List.indexOf_lt_length.mpr hbK
          constructor <;> intro <;> omega
        · have hbe : b = e.1 := by
            rcases List.mem_append.mp hb with h | h
            · exact absurd h hb'
            · simpa using h
          rw [hbe, indexOf_snoc_of_not_mem hkI, indexOf_snoc_of_not_mem hk]
          simp

theorem mapFromEntries_find (es : List (κ × α)) (i : κ) :
    (mapFromEntries es).find? (fun p => decide (p.1 = i)) =
      es.reverse.find? (fun p => decide (p.1 = i)) := by
  induction es using List.reverseRecOn with
  | nil => simp [mapFromEntries]
  | append_singleton es e ih =>
    obtain ⟨k, v⟩ := e
    rw [mapFromEntries_snoc, mapSet_find, List.reverse_append, List.reverse_singleton,
      List.singleton_append, List.find?_cons, ih]
    by_cases h : k = i <;> simp [h]

theorem mapFromEntries_mem (es : List (κ × α)) (p : κ × α) (hp : p ∈ mapFromEntries es) :
    p ∈ es := by
  induction es using List.reverseRecOn with
  | nil => simp [mapFromEntries] at hp
  | append_singleton es e ih =>
    rw [mapFromEntries_snoc] at hp
    rcases mapSet_mem _ _ _ _ hp with h | h
    · exact List.mem_append.mpr (Or.inl (ih h))
    · exact List.mem_append.mpr (Or.inr (by simp [h]))

end MapLemmas

/-- The ids of the deduplicated list are the keys of the map. -/
theorem uniqueImages_ids (images : List ImageAttachment) :
    (uniqueImages images).map (fun img => img.id) =
      (mapFromEntries (images.map (fun img => (img.id, img)))).map Prod.fst := by
  unfold uniqueImages mapValues
  rw [List.map_map]
  apply List.map_congr_left
  intro p hp
  have := mapFromEntries_mem _ p hp
  obtain ⟨img, -, rfl⟩ := List.mem_map.mp this
  rfl

/-- The entry kept for an id is the last input element with that id. -/
theorem uniqueImages_find (images : List ImageAttachment) (i : Nat) :
    (uniqueImages images).find? (fun img => decide (img.id = i)) =
      images.reverse.find? (fun img => decide (img.id = i)) := by
  have h := mapFromEntries_find (images.map (fun img => (img.id, img))) i
  have key : ∀ l : List (Nat × ImageAttachment), (∀ p ∈ l, p.1 = p.2.id) →
      (l.map Prod.snd).find? (fun img => decide (img.id = i)) =
        (l.find? (fun p => decide (p.1 = i))).map Prod.snd := by
    intro l
    induction l with
    | nil => simp
    | cons p rest ih =>
      intro hl
      have hp : p.1 = p.2.id := hl p (List.mem_cons_self _ _)
      have hrest := ih (fun q hq => hl q (List.mem_cons_of_mem _ hq))
      by_cases hi : p.2.id = i
      · simp [List.find?_cons, hp, hi]
      · simp [List.find?_cons, hp, hi, hrest]
  unfold uniqueImages mapValues
  rw [key _ (fun p hp => by
    obtain ⟨img, -, rfl⟩ := List.mem_map.mp (mapFromEntries_mem _ p hp)
    rfl), h, ← List.map_reverse, List.find?_map, Option.map_map]
  have : (Prod.snd ∘ fun img : ImageAttachment => (img.id, img)) = id := rfl
  rw [this, Option.map_id]
  rfl

/-- What a non-blank `handleSend` leaves in the transcript. -/
theorem handleSend_chatHistory (t : String) (outcome : ChatOutcome) (st : AppState)
    (ht : truthy (jsTrim t) = true) :
    (handleSend t outcome st).chatHistory =
      st.chatHistory ++ [userMessage t, (botReply outcome).getD fallbackMessage] := by
  unfold handleSend handleSendSettle handleSendBegin
  rw [ht]
  cases botReply outcome <;> simp

/-- What a non-blank `handleSend` adds to the request log. -/
theorem handleSend_requests (t : String) (outcome : ChatOutcome) (st : AppState)
    (ht : truthy (jsTrim t) = true) :
    (handleSend t outcome st).requests = st.requests ++ [Request.chat t] := by
  unfold handleSend handleSendSettle handleSendBegin
  rw [ht]
  cases botReply outcome <;> rfl

/-! ## The claims -/

/-- C1: for a successful chat response with image list `images`, the
attachment list stored on the assistant message by `handleSend` is
`uniqueImages images`; every id of the input occurs in it exactly once, it
holds no other id, and its ids stand in the order of their first occurrence
in the input. -/
theorem handleSend_attachments_unique (t : String) (st : AppState) (r : Option String)
    (images : List ImageAttachment) (ht : truthy (jsTrim t) = true) :
    (handleSend t (.ok (some ⟨r, some images⟩)) st).chatHistory.getLast? =
        some ⟨.bot, r, some (uniqueImages images)⟩ ∧
      (∀ i ∈ images.map (fun img => img.id),
        ((uniqueImages images).map (fun img => img.id)).count i = 1) ∧
      (∀ i ∈ (uniqueImages images).map (fun img => img.id), i ∈ images.map (fun img => img.id)) ∧
      (∀ a b, a ∈ images.map (fun img => img.id) → b ∈ images.map (fun img => img.id) →
        (((uniqueImages images).map (fun img => img.id)).indexOf a <
            ((uniqueImages images).map (fun img => img.id)).indexOf b ↔
          (images.map (fun img => img.id)).indexOf a <
            (images.map (fun img => img.id)).indexOf b)) := by
  have hids := uniqueImages_ids images
  have hent : (images.map (fun img => (img.id, img))).map Prod.fst =
      images.map (fun img => img.id) := by
    rw [List.map_map]; rfl
  refine ⟨?_, ?_, ?_, ?_⟩
  · rw [handleSend_chatHistory t _ st ht]
    simp [botReply]
  · intro i hi
    rw [hids]
    apply List.count_eq_one_of_mem (mapFromEntries_keys_nodup _)
    rw [mapFromEntries_keys_mem, hent]
    exact hi
  · intro i hi
    rw [hids, mapFromEntries_keys_mem, hent] at hi
    exact hi
  · intro a b ha hb
    rw [hids]
    have := mapFromEntries_keys_order (images.map (fun img => (img.id, img))) a b
      (by rw [hent]; exact ha) (by rw [hent]; exact hb)
    rw [hent] at this
    exact this

/-- Witness of C1: two entries share id 1, the stored list has ids 1, 2. -/
theorem handleSend_attachments_unique_witness :
    truthy (jsTrim "milk") = true ∧
    (handleSend "milk" (.ok (some ⟨some "Here is milk",
        some [⟨1, "Milk", 120, "AA"⟩, ⟨2, "Curd", 90, "BB"⟩, ⟨1, "Milk 1l", 130, "CC"⟩]⟩))
        (initialState true)).chatHistory.getLast? =
      some ⟨.bot, some "Here is milk",
        some (uniqueImages [⟨1, "Milk", 120, "AA"⟩, ⟨2, "Curd", 90, "BB"⟩,
          ⟨1, "Milk 1l", 130, "CC"⟩])⟩ ∧
    (uniqueImages [⟨1, "Milk", 120, "AA"⟩, ⟨2, "Curd", 90, "BB"⟩,
        ⟨1, "Milk 1l", 130, "CC"⟩]).map (fun img => img.id) = [1, 2] :=
  ⟨by decide,
    (handleSend_attachments_unique "milk" (initialState true) (some "Here is milk")
      [⟨1, "Milk", 120, "AA"⟩, ⟨2, "Curd", 90, "BB"⟩, ⟨1, "Milk 1l", 130, "CC"⟩]
      (by decide)).1,
    by decide⟩

/-- C2, as stated, fails: of two entries with id 1 the one `handleSend`
stores is the second, while the first element carrying id 1 is the other. -/
theorem handleSend_keeps_first_counterexample :
    (handleSend "milk" (.ok (some ⟨some "Here is milk",
        some [⟨1, "Milk", 120, "AA"⟩, ⟨1, "Bread", 80, "BB"⟩]⟩))
        (initialState true)).chatHistory =
      [userMessage "milk", ⟨.bot, some "Here is milk", some [⟨1, "Bread", 80, "BB"⟩]⟩] ∧
    ([⟨1, "Milk", 120, "AA"⟩, ⟨1, "Bread", 80, "BB"⟩] : List ImageAttachment).find?
        (fun img => decide (img.id = 1)) = some ⟨1, "Milk", 120, "AA"⟩ ∧
    (⟨1, "Bread", 80, "BB"⟩ : ImageAttachment) ≠ ⟨1, "Milk", 120, "AA"⟩ := by
  decide

/-- C2 (amended): in the attachment list that `handleSend` stores, the
attachment found for an id is the last element of the input list carrying
that id (none when the id does not occur); every id of the input occurs in
the stored list exactly once, so the earlier occurrences are gone; every
stored attachment is an element of the input; and the ids stand in the order
of their first occurrence in the input, so the attachment kept for an id
stands where the id occurred first. -/
theorem handleSend_keeps_last (t : String) (st : AppState) (r : Option String)
    (images : List ImageAttachment) (ht : truthy (jsTrim t) = true) :
    ∃ atts, (handleSend t (.ok (some ⟨r, some images⟩)) st).chatHistory.getLast? =
        some ⟨.bot, r, some atts⟩ ∧
      (∀ i, atts.find? (fun img => decide (img.id = i)) =
        images.reverse.find? (fun img => decide (img.id = i))) ∧
      (∀ i ∈ images.map (fun img => img.id), (atts.map (fun img => img.id)).count i = 1) ∧
      (∀ img ∈ atts, img ∈ images) ∧
      (∀ a b, a ∈ images.map (fun img => img.id) → b ∈ images.map (fun img => img.id) →
        ((atts.map (fun img => img.id)).indexOf a < (atts.map (fun img => img.id)).indexOf b ↔
          (images.map (fun img => img.id)).indexOf a <
            (images.map (fun img => img.id)).indexOf b)) := by
  have hids := uniqueImages_ids images
  have hent : (images.map (fun img => (img.id, img))).map Prod.fst =
      images.map (fun img => img.id) := by
    rw [List.map_map]; rfl
  refine ⟨uniqueImages images, ?_, uniqueImages_find images, ?_, ?_, ?_⟩
  · rw [handleSend_chatHistory t _ st ht]
    simp [botReply]
  · intro i hi
    rw [hids]
    apply List.count_eq_one_of_mem (mapFromEntries_keys_nodup _)
    rw [mapFromEntries_keys_mem, hent]
    exact hi
  · intro img himg
    unfold uniqueImages mapValues at himg
    obtain ⟨p, hp, rfl⟩ := List.mem_map.mp himg
    obtain ⟨img', himg', rfl⟩ := List.mem_map.mp (mapFromEntries_mem _ p hp)
    exact himg'
  · intro a b ha hb
    rw [hids]
    have := mapFromEntries_keys_order (images.map (fun img => (img.id, img))) a b
      (by rw [hent]; exact ha) (by rw [hent]; exact hb)
    rw [hent] at this
    exact this

/-- Witness of C2 (amended): ids 1, 2, 1; the stored list is the third
element, at the place of the first, followed by the second. -/
theorem handleSend_keeps_last_witness :
    truthy (jsTrim "milk") = true ∧
    (∃ atts, (handleSend "milk" (.ok (some ⟨some "Here is milk",
        some [⟨1, "Milk", 120, "AA"⟩, ⟨2, "Curd", 90, "BB"⟩, ⟨1, "Bread", 80, "CC"⟩]⟩))
        (initialState true)).chatHistory.getLast? = some ⟨.bot, some "Here is milk", some atts⟩ ∧
      (∀ i, atts.find? (fun img => decide (img.id = i)) =
        ([⟨1, "Milk", 120, "AA"⟩, ⟨2, "Curd", 90, "BB"⟩, ⟨1, "Bread", 80, "CC"⟩] :
          List ImageAttachment).reverse.find? (fun img => decide (img.id = i))) ∧
      (∀ i ∈ ([⟨1, "Milk", 120, "AA"⟩, ⟨2, "Curd", 90, "BB"⟩, ⟨1, "Bread", 80, "CC"⟩] :
          List ImageAttachment).map (fun img => img.id),
        (atts.map (fun img => img.id)).count i = 1)) ∧
    uniqueImages [⟨1, "Milk", 120, "AA"⟩, ⟨2, "Curd", 90, "BB"⟩, ⟨1, "Bread", 80, "CC"⟩] =
      [⟨1, "Bread", 80, "CC"⟩, ⟨2, "Curd", 90, "BB"⟩] :=
  ⟨by decide,
    (handleSend_keeps_last "milk" (initialState true) (some "Here is milk")
      [⟨1, "Milk", 120, "AA"⟩, ⟨2, "Curd", 90, "BB"⟩, ⟨1, "Bread", 80, "CC"⟩] (by decide)).imp
      (fun _ h => ⟨h.1, h.2.1, h.2.2.1⟩),
    by decide⟩

/-- A string of white space only (the empty string included) trims to a
falsy string. -/
theorem truthy_jsTrim_of_blank (s : String) (h : ∀ c ∈ s.data, isJsWhiteSpace c = true) :
    truthy (jsTrim s) = false := by
  have h1 : s.data.dropWhile isJsWhiteSpace = [] := List.dropWhile_eq_nil_iff.mpr h
  simp [truthy, jsTrim, h1]

/-- C3: when the pending input is empty or consists of white space only, a
send leaves the whole state as it was: transcript, pending input and typing
flag are unchanged and the request log gains nothing. -/
theorem clickSend_blank_noop (st : AppState) (outcome : ChatOutcome)
    (h : ∀ c ∈ st.userInput.data, isJsWhiteSpace c = true) :
    clickSend outcome st = st ∧
      (clickSend outcome st).chatHistory = st.chatHistory ∧
      (clickSend outcome st).userInput = st.userInput ∧
      (clickSend outcome st).isTyping = st.isTyping ∧
      (clickSend outcome st).requests = st.requests := by
  have hst : clickSend outcome st = st := by
    unfold clickSend handleSend
    rw [truthy_jsTrim_of_blank _ h]
    rfl
  rw [hst]
  exact ⟨rfl, rfl, rfl, rfl, rfl⟩

/-- Witness of C3: the pending input is three spaces. -/
theorem clickSend_blank_noop_witness :
    (∀ c ∈ ({ initialState true with userInput := "   " } : AppState).userInput.data,
        isJsWhiteSpace c = true) ∧
      clickSend .networkError { initialState true with userInput := "   " } =
        { initialState true with userInput := "   " } :=
  ⟨by decide,
    (clickSend_blank_noop { initialState true with userInput := "   " } .networkError
      (by decide)).1⟩

/-- C4: a send of a pending input whose trimmed form is non-empty, its
request settling either way, issues exactly one request, carrying the raw
text, and ends with the transcript extended by the user message and one
assistant message, the pending input empty and the typing flag false. -/
theorem clickSend_settles (st : AppState) (outcome : ChatOutcome)
    (ht : truthy (jsTrim st.userInput) = true) :
    (clickSend outcome st).requests = st.requests ++ [Request.chat st.userInput] ∧
      (∃ msg : Message, msg.sender = Sender.bot ∧
        (clickSend outcome st).chatHistory =
          st.chatHistory ++ [⟨Sender.user, some st.userInput, none⟩, msg]) ∧
      (clickSend outcome st).userInput = "" ∧
      (clickSend outcome st).isTyping = false := by
  refine ⟨?_, ⟨(botReply outcome).getD fallbackMessage, ?_, ?_⟩, ?_, ?_⟩
  · exact handleSend_requests st.userInput outcome st ht
  · rcases outcome with _ | _ | (_ | ⟨r, _ | imgs⟩) <;> rfl
  · exact handleSend_chatHistory _ _ _ ht
  · unfold clickSend handleSend handleSendSettle handleSendBegin
    rw [ht]
    cases botReply outcome <;> rfl
  · unfold clickSend handleSend handleSendSettle handleSendBegin
    rw [ht]
    cases botReply outcome <;> rfl

/-- Witness of C4: the scenario "milk" with one image. -/
theorem clickSend_settles_witness :
    truthy (jsTrim ({ initialState true with userInput := "milk" } : AppState).userInput) = true ∧
      (clickSend (.ok (some ⟨some "Here is milk", some [⟨1, "Milk", 120, "AA"⟩]⟩))
          { initialState true with userInput := "milk" }).chatHistory =
        [⟨Sender.user, some "milk", none⟩,
          ⟨Sender.bot, some "Here is milk", some [⟨1, "Milk", 120, "AA"⟩]⟩] ∧
      (clickSend (.ok (some ⟨some "Here is milk", some [⟨1, "Milk", 120, "AA"⟩]⟩))
          { initialState true with userInput := "milk" }).isTyping = false :=
  ⟨by decide, by decide,
    (clickSend_settles { initialState true with userInput := "milk" }
      (.ok (some ⟨some "Here is milk", some [⟨1, "Milk", 120, "AA"⟩]⟩)) (by decide)).2.2.2⟩

/-- C5, as stated, fails: a 2xx body that lacks `response` but has `images`
does not lead to the fallback; the message appended has no text and carries
the images. -/
theorem clickSend_missing_response_counterexample :
    (clickSend (.ok (some ⟨none, some [⟨1, "Milk", 120, "AA"⟩]⟩))
        { initialState true with userInput := "milk" }).chatHistory =
      [⟨Sender.user, some "milk", none⟩, ⟨Sender.bot, none, some [⟨1, "Milk", 120, "AA"⟩]⟩] ∧
    (⟨Sender.bot, none, some [⟨1, "Milk", 120, "AA"⟩]⟩ : Message) ≠ fallbackMessage := by
  decide

/-- C5 (amended): when the request of a non-blank send fails by a network
error, by a status outside 2xx, by a body that is no object or by a body that
lacks `images`, the assistant message appended is the fixed fallback, with the
text "Oops! Something went wrong. Try again." and without images, and the
send has issued one request only. -/
theorem clickSend_failure_fallback (st : AppState) (outcome : ChatOutcome)
    (ht : truthy (jsTrim st.userInput) = true)
    (hfail : outcome = .networkError ∨ (∃ status, outcome = .badStatus status) ∨
      outcome = .ok none ∨ ∃ r, outcome = .ok (some ⟨r, none⟩)) :
    (clickSend outcome st).chatHistory =
        st.chatHistory ++ [⟨Sender.user, some st.userInput, none⟩,
          ⟨Sender.bot, some "Oops! Something went wrong. Try again.", none⟩] ∧
      (clickSend outcome st).requests = st.requests ++ [Request.chat st.userInput] := by
  refine ⟨?_, handleSend_requests st.userInput outcome st ht⟩
  have hb : botReply outcome = none := by
    rcases hfail with h | ⟨s, h⟩ | h | ⟨r, h⟩ <;> subst h <;> rfl
  have := handleSend_chatHistory st.userInput outcome st ht
  rw [hb] at this
  exact this

/-- Witness of C5 (amended): a 500 answer to "milk". -/
theorem clickSend_failure_fallback_witness :
    truthy (jsTrim ({ initialState true with userInput := "milk" } : AppState).userInput) = true ∧
      (clickSend (.badStatus 500) { initialState true with userInput := "milk" }).chatHistory =
        [⟨Sender.user, some "milk", none⟩,
          ⟨Sender.bot, some "Oops! Something went wrong. Try again.", none⟩] :=
  ⟨by decide,
    (clickSend_failure_fallback { initialState true with userInput := "milk" } (.badStatus 500)
      (by decide) (Or.inr (Or.inl ⟨500, rfl⟩))).1⟩

/-- C10: the suggestion set after the fetch for the pending input settles is
empty, no request having been issued, when the trimmed input is empty; it is
the first `min 3 n` of the `n` products returned, replacing the previous set,
when the lookup succeeds; and it is the previous set when the lookup fails. -/
theorem fetchSuggestions_result (st : AppState) :
    (truthy (jsTrim st.userInput) = false → ∀ outcome,
        (fetchSuggestions outcome st).suggestions = [] ∧
        (fetchSuggestions outcome st).requests = st.requests) ∧
      (truthy (jsTrim st.userInput) = true → ∀ products : List String,
        (fetchSuggestions (.ok (some products)) st).suggestions =
            products.take (min 3 products.length) ∧
        (fetchSuggestions (.ok (some products)) st).suggestions.length ≤ 3 ∧
        (fetchSuggestions (.ok (some products)) st).requests =
            st.requests ++ [Request.products st.userInput]) ∧
      (truthy (jsTrim st.userInput) = true →
        (fetchSuggestions .failed st).suggestions = st.suggestions) := by
  refine ⟨fun h outcome => ?_, fun h products => ?_, fun h => ?_⟩
  · simp [fetchSuggestions, h]
  · have htake : products.take (min 3 products.length) = products.take 3 := by
      rcases Nat.le_total 3 products.length with h3 | h3
      · rw [Nat.min_eq_left h3]
      · rw [Nat.min_eq_right h3, List.take_length, List.take_of_length_le h3]
    simp only [fetchSuggestions, h, if_true, htake, List.length_take]
    exact ⟨trivial, Nat.min_le_left _ _, trivial⟩
  · simp [fetchSuggestions, h]

/-- Witness of C10: four products for "mi", three are kept; a blank input
clears the set; a failed lookup keeps it. -/
theorem fetchSuggestions_result_witness :
    (fetchSuggestions (.ok (some ["milk", "mint", "miso", "millet"]))
        { initialState true with userInput := "mi", suggestions := ["old"] }).suggestions =
        ["milk", "mint", "miso"] ∧
      (fetchSuggestions .failed
        { initialState true with userInput := "mi", suggestions := ["old"] }).suggestions =
        ["old"] ∧
      (fetchSuggestions .failed
        { initialState true with userInput := " ", suggestions := ["old"] }).suggestions = [] :=
  ⟨((fetchSuggestions_result
      { initialState true with userInput := "mi", suggestions := ["old"] }).2.1 (by decide)
      ["milk", "mint", "miso", "millet"]).1,
    (fetchSuggestions_result
      { initialState true with userInput := "mi", suggestions := ["old"] }).2.2 (by decide),
    ((fetchSuggestions_result
      { initialState true with userInput := " ", suggestions := ["old"] }).1 (by decide)
      .failed).1⟩

/-! ## Voice input: lemmas -/

/-- The loop of `onresult` started from accumulators `a` (interim) and `b`
(final). -/
theorem transcripts_foldl (l : List SpeechRecognitionResult) (a b : String) :
    l.foldl (fun (acc : String × String) r =>
        if r.isFinal then (acc.1, acc.2 ++ r.transcript) else (acc.1 ++ r.transcript, acc.2))
      (a, b) =
      (a ++ String.join ((l.filter (fun r => !r.isFinal)).map (fun r => r.transcript)),
        b ++ String.join ((l.filter (fun r => r.isFinal)).map (fun r => r.transcript))) := by
  induction l generalizing a b with
  | nil =>
    apply Prod.ext <;> apply String.ext <;> simp [String.join_eq]
  | cons r rest ih =>
    rw [List.foldl_cons]
    cases hr : r.isFinal
    · simp only [hr, Bool.false_eq_true, if_false, ih]
      apply Prod.ext <;> apply String.ext <;> simp [String.join_eq, hr, List.filter_cons]
    · simp only [hr, if_true, ih]
      apply Prod.ext <;> apply String.ext <;> simp [String.join_eq, hr, List.filter_cons]

theorem finalTranscript_eq (event : SpeechRecognitionEvent) :
    finalTranscript event =
      String.join (((event.results.drop event.resultIndex).filter (fun r => r.isFinal)).map
        (fun r => r.transcript)) := by
  unfold finalTranscript transcripts
  rw [transcripts_foldl]
  apply String.ext
  simp

theorem interimTranscript_eq (event : SpeechRecognitionEvent) :
    interimTranscript event =
      String.join (((event.results.drop event.resultIndex).filter (fun r => !r.isFinal)).map
        (fun r => r.transcript)) := by
  unfold interimTranscript transcripts
  rw [transcripts_foldl]
  apply String.ext
  simp

theorem truthy_of_truthy_jsTrim (s : String) (h : truthy (jsTrim s) = true) :
    truthy s = true := by
  by_contra hs
  have hd : s.data = [] := by
    cases hsd : s.data with
    | nil => rfl
    | cons c cs => simp [truthy, hsd] at hs
  simp [truthy, jsTrim, hd] at h

theorem handleSend_mount (outcome : ChatOutcome) (st : AppState) :
    handleSend mountUserInput outcome st = st := by
  have : truthy (jsTrim mountUserInput) = false := by decide
  simp [handleSend, this]

theorem silenceCallback_eq (f : String) (outcome : ChatOutcome) (st : AppState) :
    silenceCallback f outcome st =
      { st with isListening := false, stopCalls := st.stopCalls + 1 } := by
  unfold silenceCallback
  simp only [handleSend_mount, ite_self]
  rfl

theorem fireSilence_eq (t : Nat) (outcome : ChatOutcome) (st : AppState) :
    fireSilence t outcome st =
      match st.silenceTimeout with
      | some tm =>
        if tm.deadline ≤ t then
          { st with silenceTimeout := none, isListening := false, stopCalls := st.stopCalls + 1 }
        else st
      | none => st := by
  unfold fireSilence
  cases st.silenceTimeout with
  | none => rfl
  | some tm => simp only [silenceCallback_eq]

/-- C6, as stated, fails: a silence timer with deadline 1000 is pending when
an event with an interim result only arrives at time 500; after the event no
silence timer is pending, and it never fires. -/
theorem interim_event_keeps_timer_counterexample :
    (advance 500 .networkError
        (onresult ⟨0, [⟨true, "milk"⟩]⟩ (onstart (initialState true)))).silenceTimeout =
      some ⟨1000, "milk"⟩ ∧
    finalTranscript ⟨1, [⟨true, "milk"⟩, ⟨false, " and"⟩]⟩ = "" ∧
    (onresult ⟨1, [⟨true, "milk"⟩, ⟨false, " and"⟩]⟩
        (advance 500 .networkError
          (onresult ⟨0, [⟨true, "milk"⟩]⟩ (onstart (initialState true))))).silenceTimeout =
      none ∧
    (advance 5000 .networkError
        (onresult ⟨1, [⟨true, "milk"⟩, ⟨false, " and"⟩]⟩
          (advance 500 .networkError
            (onresult ⟨0, [⟨true, "milk"⟩]⟩ (onstart (initialState true)))))).stopCalls = 0 := by
  decide

/-- C6 (amended): handling a recognition event whose `finalTranscript` is
empty cancels a pending silence timer and schedules none: afterwards no
silence timer is pending, and however much time passes without a further
event, no silence callback runs (no `recognition.stop()`, no request, no
transcript entry). -/
theorem onresult_interim_only (st : AppState) (event : SpeechRecognitionEvent)
    (h : finalTranscript event = "") :
    (onresult event st).silenceTimeout = none ∧
      ∀ ms outcome,
        (advance ms outcome (onresult event st)).stopCalls = st.stopCalls ∧
        (advance ms outcome (onresult event st)).requests = st.requests ∧
        (advance ms outcome (onresult event st)).chatHistory = st.chatHistory ∧
        (advance ms outcome (onresult event st)).isListening = st.isListening := by
  have ht : truthy (finalTranscript event) = false := by rw [h]; rfl
  refine ⟨by simp [onresult, ht], fun ms outcome => ?_⟩
  by_cases h2 : st.now + 200 ≤ st.now + ms <;>
    simp [advance, debounceFirst, onresult, ht, fireSilence_eq, fireDebounce, debounceCallback, h2]

/-- Witness of C6 (amended). -/
theorem onresult_interim_only_witness :
    finalTranscript ⟨1, [⟨true, "milk"⟩, ⟨false, " and"⟩]⟩ = "" ∧
      (onresult ⟨1, [⟨true, "milk"⟩, ⟨false, " and"⟩]⟩
        (advance 500 .networkError
          (onresult ⟨0, [⟨true, "milk"⟩]⟩ (onstart (initialState true))))).silenceTimeout =
        none :=
  ⟨by decide,
    (onresult_interim_only
      (advance 500 .networkError (onresult ⟨0, [⟨true, "milk"⟩]⟩ (onstart (initialState true))))
      ⟨1, [⟨true, "milk"⟩, ⟨false, " and"⟩]⟩ (by decide)).1⟩

/-- C7, the code at the failing input.  The microphone is clicked, "milk"
arrives as a finalized result, the debounce timer writes it to the pending
input 200ms later, the suggestion effect runs for the new input, and no
recognition event of any kind follows.  One second after the result the
silence timer has fired and stopped the session, but the submit did not
happen: the transcript is empty, the typing flag is false and the only
request issued is the suggestion lookup, no chat request.  The `handleSend`
the timer calls is the one of the first render, whose `userInput` is
`mountUserInput`, and it returns at the guard of line 123.  The Send button
in the same state does submit "milk". -/
theorem silence_autosubmit_does_not_submit :
    truthy (jsTrim (finalTranscript ⟨0, [⟨true, "milk"⟩]⟩)) = true ∧
    (startVoiceInput (initialState true)).isListening = true ∧
    (advance 800 (.ok (some ⟨some "Here is milk", some []⟩))
      (fetchSuggestions (.ok (some ["milk"]))
        (advance 200 (.ok (some ⟨some "Here is milk", some []⟩))
          (onresult ⟨0, [⟨true, "milk"⟩]⟩ (startVoiceInput (initialState true)))))) =
      { initialState true with
        userInput := "milk", suggestions := ["milk"], isListening := false, now := 1000,
        requests := [Request.products "milk"], debounceWrites := ["milk"], stopCalls := 1 } ∧
    (advance 800 (.ok (some ⟨some "Here is milk", some []⟩))
      (fetchSuggestions (.ok (some ["milk"]))
        (advance 200 (.ok (some ⟨some "Here is milk", some []⟩))
          (onresult ⟨0, [⟨true, "milk"⟩]⟩
            (startVoiceInput (initialState true)))))).chatHistory = [] ∧
    Request.chat "milk" ∉
      (advance 800 (.ok (some ⟨some "Here is milk", some []⟩))
        (fetchSuggestions (.ok (some ["milk"]))
          (advance 200 (.ok (some ⟨some "Here is milk", some []⟩))
            (onresult ⟨0, [⟨true, "milk"⟩]⟩
              (startVoiceInput (initialState true)))))).requests ∧
    (clickSend (.ok (some ⟨some "Here is milk", some []⟩))
      (advance 800 (.ok (some ⟨some "Here is milk", some []⟩))
        (fetchSuggestions (.ok (some ["milk"]))
          (advance 200 (.ok (some ⟨some "Here is milk", some []⟩))
            (onresult ⟨0, [⟨true, "milk"⟩]⟩
              (startVoiceInput (initialState true))))))).chatHistory =
      [⟨Sender.user, some "milk", none⟩, ⟨Sender.bot, some "Here is milk", some []⟩] := by
  decide

/-- The silence timer by itself: after a recognition event whose
`finalTranscript` is non-blank it is pending with a deadline 1000ms later;
while less than 1000ms pass without a recognition event it stays pending,
and once 1000ms have passed without one it has fired, `recognition.stop()`
has been called once and the state is Idle, while the transcript and the
request log are what they were: the call of `handleSend` it makes adds
nothing. -/
theorem silence_timer_fires (st : AppState) (event : SpeechRecognitionEvent)
    (outcome : ChatOutcome) (hl : st.isListening = true)
    (hf : truthy (jsTrim (finalTranscript event)) = true) :
    (onresult event st).silenceTimeout = some ⟨st.now + 1000, finalTranscript event⟩ ∧
      (∀ ms, ms < 1000 →
        (advance ms outcome (onresult event st)).silenceTimeout =
            some ⟨st.now + 1000, finalTranscript event⟩ ∧
        (advance ms outcome (onresult event st)).isListening = true ∧
        (advance ms outcome (onresult event st)).stopCalls = st.stopCalls) ∧
      (∀ ms, 1000 ≤ ms →
        (advance ms outcome (onresult event st)).silenceTimeout = none ∧
        (advance ms outcome (onresult event st)).isListening = false ∧
        (advance ms outcome (onresult event st)).stopCalls = st.stopCalls + 1 ∧
        (advance ms outcome (onresult event st)).chatHistory = st.chatHistory ∧
        (advance ms outcome (onresult event st)).requests = st.requests) := by
  have ht := truthy_of_truthy_jsTrim _ hf
  refine ⟨by simp [onresult, ht], fun ms hms => ?_, fun ms hms => ?_⟩
  · have h1 : ¬ (st.now + 1000 ≤ st.now + ms) := by omega
    by_cases h2 : st.now + 200 ≤ st.now + ms <;>
      simp [advance, debounceFirst, onresult, ht, fireSilence_eq, fireDebounce,
        debounceCallback, h1, h2, hl]
  · have h1 : st.now + 1000 ≤ st.now + ms := by omega
    have h2 : st.now + 200 ≤ st.now + ms := by omega
    simp [advance, debounceFirst, onresult, ht, fireSilence_eq, fireDebounce,
      debounceCallback, h1, h2]

/-! ## Debounce: lemmas -/

/-- Less than 200ms after an event nothing has fired: only the clock moved. -/
theorem advance_short (st : AppState) (v : String) (gap : Nat) (outcome : ChatOutcome)
    (hd : st.debounceTimeout = some ⟨st.now + 200, v⟩)
    (hs : st.silenceTimeout = none ∨ ∃ f, st.silenceTimeout = some ⟨st.now + 1000, f⟩)
    (hgap : gap < 200) :
    advance gap outcome st = { st with now := st.now + gap } := by
  have h1 : ¬ (st.now + 200 ≤ st.now + gap) := by omega
  have h2 : ¬ (st.now + 1000 ≤ st.now + gap) := by omega
  rcases hs with hs | ⟨f, hs⟩ <;>
    simp [advance, debounceFirst, fireSilence_eq, fireDebounce, hd, hs, h1, h2]

/-- At least 200ms after an event the debounce timer has fired, once. -/
theorem advance_long (st : AppState) (v : String) (ms : Nat) (outcome : ChatOutcome)
    (hd : st.debounceTimeout = some ⟨st.now + 200, v⟩)
    (hs : st.silenceTimeout = none ∨ ∃ f, st.silenceTimeout = some ⟨st.now + 1000, f⟩)
    (hms : 200 ≤ ms) :
    (advance ms outcome st).debounceWrites = st.debounceWrites ++ [v] ∧
      (advance ms outcome st).debounceTimeout = none ∧
      (advance ms outcome st).userInput = v := by
  have h1 : st.now + 200 ≤ st.now + ms := by omega
  rcases hs with hs | ⟨f, hs⟩
  · simp [advance, debounceFirst, fireSilence_eq, fireDebounce, debounceCallback, hd, hs, h1]
  · by_cases h2 : st.now + 1000 ≤ st.now + ms <;>
      simp [advance, debounceFirst, fireSilence_eq, fireDebounce, debounceCallback, hd, hs, h1, h2]

theorem onresult_shape (event : SpeechRecognitionEvent) (st : AppState) :
    (onresult event st).debounceTimeout =
        some ⟨(onresult event st).now + 200, debounceValue event⟩ ∧
      ((onresult event st).silenceTimeout = none ∨
        ∃ f, (onresult event st).silenceTimeout = some ⟨(onresult event st).now + 1000, f⟩) ∧
      (onresult event st).debounceWrites = st.debounceWrites := by
  refine ⟨rfl, ?_, rfl⟩
  cases h : truthy (finalTranscript event)
  · left; simp [onresult, h]
  · right; exact ⟨finalTranscript event, by simp [onresult, h]⟩

/-- During a burst with gaps below 200ms nothing is written, and the pending
debounce timer is the one of the last event. -/
theorem runEvents_burst (rest : List (Nat × SpeechRecognitionEvent)) (outcome : ChatOutcome) :
    ∀ (st : AppState) (first : SpeechRecognitionEvent),
      st.debounceTimeout = some ⟨st.now + 200, debounceValue first⟩ →
      (st.silenceTimeout = none ∨ ∃ f, st.silenceTimeout = some ⟨st.now + 1000, f⟩) →
      (∀ p ∈ rest, p.1 < 200) →
      (runEvents rest outcome st).debounceTimeout =
          some ⟨(runEvents rest outcome st).now + 200,
            debounceValue ((first :: rest.map Prod.snd).getLast (List.cons_ne_nil _ _))⟩ ∧
        ((runEvents rest outcome st).silenceTimeout = none ∨
          ∃ f, (runEvents rest outcome st).silenceTimeout =
            some ⟨(runEvents rest outcome st).now + 1000, f⟩) ∧
        (runEvents rest outcome st).debounceWrites = st.debounceWrites := by
  induction rest with
  | nil =>
    intro st first hd hs _
    exact ⟨by simpa [runEvents] using hd, by simpa [runEvents] using hs, rfl⟩
  | cons p rest ih =>
    intro st first hd hs hgaps
    obtain ⟨gap, ev⟩ := p
    have hgap : gap < 200 := hgaps (gap, ev) (List.mem_cons_self _ _)
    have hrest : ∀ q ∈ rest, q.1 < 200 := fun q hq => hgaps q (List.mem_cons_of_mem _ hq)
    have hadv := advance_short st _ gap outcome hd hs hgap
    obtain ⟨s1, s2, s3⟩ := onresult_shape ev (advance gap outcome st)
    have := ih (onresult ev (advance gap outcome st)) ev s1 s2 hrest
    simp only [runEvents, List.map_cons, List.getLast_cons (List.cons_ne_nil _ _)]
    refine ⟨this.1, this.2.1, ?_⟩
    rw [this.2.2, s3, hadv]

/-- C8: in a burst of recognition events where each event comes less than
200ms after the one before, nothing is written to the pending input while
the burst lasts, and once 200ms have passed after the last event exactly one
value has been written and no debounce timer is pending: the value is that of
the last event, the concatenation of its finalized results from `resultIndex`
on if that is non-empty and else the concatenation of its interim results
from `resultIndex` on. -/
theorem debounce_last_event_only (st : AppState) (first : SpeechRecognitionEvent)
    (rest : List (Nat × SpeechRecognitionEvent)) (outcome : ChatOutcome) (ms : Nat)
    (hgaps : ∀ p ∈ rest, p.1 < 200) (hms : 200 ≤ ms) :
    (runEvents rest outcome (onresult first st)).debounceWrites = st.debounceWrites ∧
      (advance ms outcome (runEvents rest outcome (onresult first st))).debounceWrites =
        st.debounceWrites ++
          [debounceValue ((first :: rest.map Prod.snd).getLast (List.cons_ne_nil _ _))] ∧
      (advance ms outcome (runEvents rest outcome (onresult first st))).debounceTimeout = none ∧
      (advance ms outcome (runEvents rest outcome (onresult first st))).userInput =
        debounceValue ((first :: rest.map Prod.snd).getLast (List.cons_ne_nil _ _)) ∧
      ∀ event : SpeechRecognitionEvent, debounceValue event =
        if String.join (((event.results.drop event.resultIndex).filter
            (fun r => r.isFinal)).map (fun r => r.transcript)) = "" then
          String.join (((event.results.drop event.resultIndex).filter
            (fun r => !r.isFinal)).map (fun r => r.transcript))
        else
          String.join (((event.results.drop event.resultIndex).filter
            (fun r => r.isFinal)).map (fun r => r.transcript)) := by
  obtain ⟨s1, s2, s3⟩ := onresult_shape first st
  obtain ⟨b1, b2, b3⟩ := runEvents_burst rest outcome (onresult first st) first s1 s2 hgaps
  obtain ⟨a1, a2, a3⟩ := advance_long _ _ ms outcome b1 b2 hms
  refine ⟨by rw [b3, s3], by rw [a1, b3, s3], a2, a3, fun event => ?_⟩
  rw [← finalTranscript_eq, ← interimTranscript_eq]
  unfold debounceValue
  by_cases h : finalTranscript event = ""
  · rw [if_pos h, h]; rfl
  · rw [if_neg h]
    have : truthy (finalTranscript event) = true := by
      cases hd : (finalTranscript event).data with
      | nil => exact absurd (String.ext hd) h
      | cons c cs => simp [truthy, hd]
    rw [if_pos this]

/-- Witness of C8: three events 50ms and 120ms apart; the last one has its
first result before `resultIndex`, a finalized "milk" and an interim " and". -/
theorem debounce_last_event_only_witness :
    (∀ p ∈ [(50, (⟨0, [⟨false, "mi"⟩]⟩ : SpeechRecognitionEvent)),
        (120, ⟨1, [⟨true, "old"⟩, ⟨true, "milk"⟩, ⟨false, " and"⟩]⟩)], p.1 < 200) ∧
      (advance 200 .networkError
        (runEvents [(50, ⟨0, [⟨false, "mi"⟩]⟩),
            (120, ⟨1, [⟨true, "old"⟩, ⟨true, "milk"⟩, ⟨false, " and"⟩]⟩)] .networkError
          (onresult ⟨0, [⟨false, "m"⟩]⟩ (onstart (initialState true))))).debounceWrites =
        ["milk"] :=
  ⟨by decide,
    (debounce_last_event_only (onstart (initialState true)) ⟨0, [⟨false, "m"⟩]⟩
      [(50, ⟨0, [⟨false, "mi"⟩]⟩),
        (120, ⟨1, [⟨true, "old"⟩, ⟨true, "milk"⟩, ⟨false, " and"⟩]⟩)] .networkError 200
      (by decide) (Nat.le_refl _)).2.1.trans (by decide)⟩

/-! ## Timers across the transitions -/

theorem handleSend_timers (u : String) (outcome : ChatOutcome) (st : AppState) :
    (handleSend u outcome st).silenceTimeout = st.silenceTimeout ∧
      (handleSend u outcome st).debounceTimeout = st.debounceTimeout := by
  unfold handleSend handleSendSettle handleSendBegin
  cases truthy (jsTrim u) <;> cases botReply outcome <;> exact ⟨rfl, rfl⟩

theorem fetchSuggestions_timers (outcome : LookupOutcome) (st : AppState) :
    (fetchSuggestions outcome st).silenceTimeout = st.silenceTimeout ∧
      (fetchSuggestions outcome st).debounceTimeout = st.debounceTimeout := by
  unfold fetchSuggestions
  cases truthy (jsTrim st.userInput)
  · exact ⟨rfl, rfl⟩
  · rcases outcome with _ | _ | _ <;> exact ⟨rfl, rfl⟩

/-- After time has passed each timer is either as before or gone. -/
theorem advance_timers (ms : Nat) (outcome : ChatOutcome) (st : AppState) :
    ((advance ms outcome st).silenceTimeout = st.silenceTimeout ∨
        (advance ms outcome st).silenceTimeout = none) ∧
      ((advance ms outcome st).debounceTimeout = st.debounceTimeout ∨
        (advance ms outcome st).debounceTimeout = none) := by
  simp only [advance, fireSilence_eq, fireDebounce, debounceCallback]
  cases hd : st.debounceTimeout <;> cases hs : st.silenceTimeout <;>
    simp only [hd, hs] <;> (repeat' split) <;> simp_all

/-- In every reachable state a pending debounce timer is due no later than a
pending silence timer. -/
theorem reachable_timer_order (st : AppState) (h : Reachable st) :
    ∀ s d, st.silenceTimeout = some s → st.debounceTimeout = some d →
      d.deadline ≤ s.deadline := by
  obtain ⟨supported, actions, rfl⟩ := h
  induction actions using List.reverseRecOn with
  | nil => intro s d hs; simp [initialState] at hs
  | append_singleton actions a ih =>
    rw [List.foldl_append, List.foldl_cons, List.foldl_nil]
    generalize actions.foldl step (initialState supported) = st at ih
    have keep : ∀ st' : AppState, st'.silenceTimeout = st.silenceTimeout →
        st'.debounceTimeout = st.debounceTimeout →
        ∀ s d, st'.silenceTimeout = some s → st'.debounceTimeout = some d →
          d.deadline ≤ s.deadline := by
      intro st' h1 h2 s d hs hd
      exact ih s d (h1 ▸ hs) (h2 ▸ hd)
    cases a with
    | change text => exact keep _ rfl rfl
    | fetch outcome =>
      exact keep _ (fetchSuggestions_timers outcome st).1 (fetchSuggestions_timers outcome st).2
    | send outcome =>
      exact keep _ (handleSend_timers _ outcome st).1 (handleSend_timers _ outcome st).2
    | sendBegin =>
      simp only [step]
      cases truthy (jsTrim st.userInput) <;> exact keep _ rfl rfl
    | sendSettle outcome =>
      simp only [step, handleSendSettle]
      cases botReply outcome <;> exact keep _ rfl rfl
    | mic =>
      simp only [step, startVoiceInput]
      cases st.recognition <;> cases st.isListening <;> exact keep _ rfl rfl
    | result event =>
      intro s d hs hd
      simp only [step, onresult] at hs hd
      cases ht : truthy (finalTranscript event)
      · simp [ht] at hs
      · simp only [ht, if_true, Option.some.injEq] at hs hd
        subst hs; subst hd
        simp
    | sessionEnd => exact keep _ rfl rfl
    | sessionError => exact keep _ rfl rfl
    | wait ms outcome =>
      intro s d hs hd
      obtain ⟨h1, h2⟩ := advance_timers ms outcome st
      simp only [step] at hs hd
      rcases h1 with h1 | h1
      · rcases h2 with h2 | h2
        · exact ih s d (h1 ▸ hs) (h2 ▸ hd)
        · rw [h2] at hd; cases hd
      · rw [h1] at hs; cases hs

/-- C9, as stated, fails: 100ms after "milk" was finalized a capture error
ends the session; in the resulting Idle state the debounce timer and the
silence timer are both still pending, and both fire later.  The same holds
when the session ends by `onend`. -/
theorem idle_timers_canceled_counterexample :
    ((onerror (advance 100 .networkError
        (onresult ⟨0, [⟨true, "milk"⟩]⟩ (onstart (initialState true))))).isListening = false ∧
      (onerror (advance 100 .networkError
        (onresult ⟨0, [⟨true, "milk"⟩]⟩ (onstart (initialState true))))).debounceTimeout =
        some ⟨200, "milk"⟩ ∧
      (onerror (advance 100 .networkError
        (onresult ⟨0, [⟨true, "milk"⟩]⟩ (onstart (initialState true))))).silenceTimeout =
        some ⟨1000, "milk"⟩) ∧
    ((onend (advance 100 .networkError
        (onresult ⟨0, [⟨true, "milk"⟩]⟩ (onstart (initialState true))))).isListening = false ∧
      (onend (advance 100 .networkError
        (onresult ⟨0, [⟨true, "milk"⟩]⟩ (onstart (initialState true))))).debounceTimeout =
        some ⟨200, "milk"⟩ ∧
      (onend (advance 100 .networkError
        (onresult ⟨0, [⟨true, "milk"⟩]⟩ (onstart (initialState true))))).silenceTimeout =
        some ⟨1000, "milk"⟩) ∧
    ((advance 900 .networkError (onerror (advance 100 .networkError
        (onresult ⟨0, [⟨true, "milk"⟩]⟩ (onstart (initialState true)))))).debounceWrites =
        ["milk"] ∧
      (advance 900 .networkError (onerror (advance 100 .networkError
        (onresult ⟨0, [⟨true, "milk"⟩]⟩ (onstart (initialState true)))))).stopCalls = 1) := by
  decide

/-- C9 (amended): `onend` and `onerror` make the state Idle and leave both
timers as they were, pending ones included; when the silence timer fires in
a reachable state, the resulting state is Idle with neither timer pending;
the cleanup on unmount leaves neither timer pending. -/
theorem idle_transitions_timers (st : AppState) (h : Reachable st) :
    ((onend st).isListening = false ∧
        (onend st).debounceTimeout = st.debounceTimeout ∧
        (onend st).silenceTimeout = st.silenceTimeout) ∧
      ((onerror st).isListening = false ∧
        (onerror st).debounceTimeout = st.debounceTimeout ∧
        (onerror st).silenceTimeout = st.silenceTimeout) ∧
      (∀ (tm : Timer) (ms : Nat) (outcome : ChatOutcome),
        st.silenceTimeout = some tm → tm.deadline ≤ st.now + ms →
          (advance ms outcome st).isListening = false ∧
          (advance ms outcome st).debounceTimeout = none ∧
          (advance ms outcome st).silenceTimeout = none) ∧
      ((cleanup st).debounceTimeout = none ∧ (cleanup st).silenceTimeout = none) := by
  refine ⟨⟨rfl, rfl, rfl⟩, ⟨rfl, rfl, rfl⟩, fun tm ms outcome hs hdue => ?_, ⟨rfl, rfl⟩⟩
  cases hd : st.debounceTimeout with
  | none =>
    simp [advance, debounceFirst, fireSilence_eq, fireDebounce, hd, hs, hdue]
  | some d =>
    have hle := reachable_timer_order st h tm d hs hd
    have hdd : d.deadline ≤ st.now + ms := Nat.le_trans hle hdue
    simp [advance, debounceFirst, fireSilence_eq, fireDebounce, debounceCallback, hd, hs, hdue,
      hle, hdd]

/-- Witness of C9 (amended): the state after the microphone button and one
finalized result, one second later. -/
theorem idle_transitions_timers_witness :
    Reachable (onresult ⟨0, [⟨true, "milk"⟩]⟩ (onstart (initialState true))) ∧
      (advance 1000 .networkError
        (onresult ⟨0, [⟨true, "milk"⟩]⟩ (onstart (initialState true)))).debounceTimeout = none :=
  ⟨⟨true, [.mic, .result ⟨0, [⟨true, "milk"⟩]⟩], by decide⟩,
    ((idle_transitions_timers (onresult ⟨0, [⟨true, "milk"⟩]⟩ (onstart (initialState true)))
      ⟨true, [.mic, .result ⟨0, [⟨true, "milk"⟩]⟩], by decide⟩).2.2.1 ⟨1000, "milk"⟩ 1000
      .networkError (by decide) (by decide)).2.1⟩

end GroceryChatbot
